import Mathlib

/-!
# Verification of the optimg dimension-resolution, output-guard and report logic

Shallow embedding of the latest revision of `optimg` (`main` in the most
recent source file, the one with the `-max`/`-min`/`-n` flags).  Go `int` is
modelled as `Int`; Go `float64` arithmetic is idealised as exact rational
arithmetic (`ℚ`); Go's `int(x)` float-to-int conversion is truncation toward
zero; the filesystem is modelled as a predicate on paths together with a
predicate saying which removals succeed; the lilliput codec collaborator is
abstracted as a parameter giving the transform outcome.
-/

namespace Optimg

/-- Truncation of a rational toward zero, the semantics of Go's `int(x)`
conversion applied to a nonnegative-or-negative float. -/
def ratTrunc (q : ℚ) : Int :=
  if 0 ≤ q then q.floor else -((-q).floor)

/-- `Scale` from the source: `int(float64(size) * (float64(pct) / float64(100)))`. -/
def Scale (pct : ℚ) (size : Int) : Int :=
  ratTrunc ((size : ℚ) * (pct / 100))

/-- The command-line options record (`Options` struct), restricted to the
fields the resolver, guard and reporter read.  `pctResize` is the `-pct`
float64 flag, `maxLongest` is `-max`, `minShortest` is `-min`, `noAction`
is the `-n` dry-run flag. -/
structure Options where
  outputFilename : String
  outputWidth : Int
  outputHeight : Int
  maxWidth : Int
  maxHeight : Int
  maxLongest : Int
  minShortest : Int
  pctResize : ℚ
  stretch : Bool
  force : Bool
  noAction : Bool
  deriving DecidableEq

/-- The `-max` step of `main`:
`if opt.maxLongest > 0 { if longest := Max(W,H); longest > opt.maxLongest
 { opt.pctResize = maxLongest/longest*100 } }`. -/
def pctAfterMax (pct : ℚ) (maxLongest W H : Int) : ℚ :=
  if maxLongest > 0 ∧ max W H > maxLongest then
    ((maxLongest : ℚ) / ((max W H : Int) : ℚ)) * 100
  else pct

/-- The `-min` step of `main`, run unconditionally after the `-max` step:
`if opt.minShortest > 0 { if shortest := Min(W,H); shortest > opt.minShortest
 { opt.pctResize = minShortest/shortest*100 } }`. -/
def pctAfterMin (pct : ℚ) (minShortest W H : Int) : ℚ :=
  if minShortest > 0 ∧ min W H > minShortest then
    ((minShortest : ℚ) / ((min W H : Int) : ℚ)) * 100
  else pct

/-- The value of `opt.pctResize` after both rewriting steps of `main`. -/
def finalPct (o : Options) (W H : Int) : ℚ :=
  pctAfterMin (pctAfterMax o.pctResize o.maxLongest W H) o.minShortest W H

/-- The immediately-invoked dimension closure of `main`; the width and the
height closures are this one function instantiated per axis:
`if pct > 0 return Scale(pct, intrinsic); if maxD > 0 return maxD;
 if explicitD == 0 return intrinsic; return explicitD`. -/
def resolveDim (pct : ℚ) (maxD explicitD intrinsic : Int) : Int :=
  if pct > 0 then Scale pct intrinsic
  else if maxD > 0 then maxD
  else if explicitD = 0 then intrinsic
  else explicitD

/-- The three lilliput resize methods used by the source:
`ImageOpsFit`, `ImageOpsResize`, `ImageOpsNoResize`. -/
inductive ResizeMethod where
  | fit
  | resize
  | noResize
  deriving DecidableEq

/-- The resize-method selection of `main`: start from `Fit`, switch to
`Resize` on `-stretch`, then override with `NoResize` when the resolved
dimensions equal the intrinsic ones. -/
def resolveMethod (stretch : Bool) (outW outH W H : Int) : ResizeMethod :=
  if outW = W ∧ outH = H then .noResize
  else if stretch then .resize else .fit

/-- The full dimension resolution of `main` for intrinsic size `(W, H)`:
percentage rewriting, then the two dimension closures, then the method. -/
def resolveAll (o : Options) (W H : Int) : Int × Int × ResizeMethod :=
  let pct := finalPct o W H
  let w := resolveDim pct o.maxWidth o.outputWidth W
  let h := resolveDim pct o.maxHeight o.outputHeight H
  (w, h, resolveMethod o.stretch w h W H)

/-- `Rat.floor` is the mathematical floor. -/
theorem ratFloor_eq (q : ℚ) : q.floor = ⌊q⌋ := by
  rw [Rat.floor_def', Rat.floor_def]

/-- Rounding to nearest with ties to even, the rounding Go's `fmt` applies to
the last printed decimal digit (our inputs are exactly representable, so the
binary-to-decimal conversion is exact up to this rounding). -/
def roundHalfEven (q : ℚ) : Int :=
  if q - (⌊q⌋ : ℚ) < 1/2 then ⌊q⌋
  else if (1:ℚ)/2 < q - (⌊q⌋ : ℚ) then ⌊q⌋ + 1
  else if ⌊q⌋ % 2 = 0 then ⌊q⌋ else ⌊q⌋ + 1

/-- Go's `%3.1f` on a nonnegative value: one decimal digit, and the minimum
width of 3 never pads because `d.d` already has three characters.  `Humanize`
only ever formats nonnegative values (byte counts divided by 1024). -/
def fmtOneDec (q : ℚ) : String :=
  let n := (roundHalfEven (q * 10)).toNat
  toString (n / 10) ++ "." ++ toString (n % 10)

/-- The unit loop of `Humanize`: print `num` with the current unit once it is
below the 1024 factor, otherwise divide and move to the next unit; after
`Z` fall through to yottabytes. -/
def humanizeLoop (num : ℚ) : List String → String
  | [] => fmtOneDec num ++ "Y" ++ "B"
  | u :: rest =>
      if num < 1024 then fmtOneDec num ++ u ++ "B"
      else humanizeLoop (num / 1024) rest

/-- `Humanize` from the source: suffix `"B"`, factor 1024, units
`"", K, M, G, T, P, E, Z`.  Byte counts are lengths of buffers, hence `Nat`. -/
def Humanize (bytes : Nat) : String :=
  humanizeLoop (bytes : ℚ) ["", "K", "M", "G", "T", "P", "E", "Z"]

/-- The filesystem visible to the program: which paths exist, and which
removals would succeed. -/
structure Fs where
  pathExists : String → Bool
  removeOk : String → Bool

/-- `os.Remove`: deletes the path when it succeeds, otherwise errors
(`none`). -/
def removeFile (fs : Fs) (filename : String) : Option Fs :=
  if fs.removeOk filename then
    some { fs with pathExists := fun q => if q = filename then false else fs.pathExists q }
  else none

/-- The two error cases of `validateOutputFile`. -/
inductive VError where
  | collision
  | removal
  deriving DecidableEq

/-- `validateOutputFile` from the source.  The returned `Bool` records that an
existing file was removed (the code prints "replacing due to -f" there).
`os.Stat` + `!os.IsNotExist(err)` is modelled as the existence test. -/
def validateOutputFile (fs : Fs) (filename : String) (force : Bool) :
    Except VError (Fs × Bool) :=
  if fs.pathExists filename then
    if force = false then .error .collision
    else
      match removeFile fs filename with
      | some fs' => .ok (fs', true)
      | none => .error .removal
  else .ok (fs, false)

/-- `ioutil.WriteFile` on the destination: afterwards the path exists. -/
def writeFile (fs : Fs) (filename : String) : Fs :=
  { fs with pathExists := fun q => if q = filename then true else fs.pathExists q }

/-- The values the final report table prints: file dimensions before/after,
sizes, and the size-reduction percentage `100 - outSize/inSize*100`. -/
structure Report where
  inW : Int
  inH : Int
  outW : Int
  outH : Int
  mode : ResizeMethod
  inSize : Nat
  outSize : Nat
  reduction : ℚ
  deriving DecidableEq

/-- The report `main` prints for intrinsic `(W, H)` and the given byte
counts. -/
def mkReport (o : Options) (W H : Int) (inSize outSize : Nat) : Report :=
  { inW := W, inH := H,
    outW := (resolveAll o W H).1,
    outH := (resolveAll o W H).2.1,
    mode := (resolveAll o W H).2.2,
    inSize := inSize, outSize := outSize,
    reduction := 100 - ((outSize : ℚ) / (inSize : ℚ) * 100) }

/-- Filesystem mutations `main` can perform on the destination path. -/
inductive Eff where
  | removeDest
  | writeDest
  deriving DecidableEq

/-- The `os.Exit(1)` causes reachable from the modelled part of `main`. -/
inductive MainError where
  | collision
  | removal
  | transformFailed
  | writeFailed
  deriving DecidableEq

/-- What an invocation leaves behind: the exit outcome (report on success),
the final filesystem, and the destination mutations performed. -/
structure Outcome where
  result : Except MainError Report
  fs : Fs
  effs : List Eff

/-- `main` after validation: resolve dimensions, transform, then (unless
`-n`) write the output file, and build the report. -/
def afterValidate (fs1 : Fs) (effs : List Eff) (o : Options) (W H : Int)
    (inSize : Nat) (tr : Except Unit Nat) (writeOk : Bool) : Outcome :=
  match tr with
  | .error _ => ⟨.error .transformFailed, fs1, effs⟩
  | .ok outSize =>
      if o.noAction then ⟨.ok (mkReport o W H inSize outSize), fs1, effs⟩
      else if writeOk then
        ⟨.ok (mkReport o W H inSize outSize), writeFile fs1 o.outputFilename,
          effs ++ [.writeDest]⟩
      else ⟨.error .writeFailed, fs1, effs⟩

/-- `main` from the destination-validation step on, for an input whose decode
succeeded with intrinsic size `(W, H)` and `inSize` input bytes.  `tr` is the
outcome of the codec collaborator's `Transform` (`.ok` with the encoded byte
count, or an error), `writeOk` whether the final `WriteFile` would succeed.
With `-n` (dry run) validation and the write are skipped. -/
def runPipeline (fs0 : Fs) (o : Options) (W H : Int) (inSize : Nat)
    (tr : Except Unit Nat) (writeOk : Bool) : Outcome :=
  if o.noAction then afterValidate fs0 [] o W H inSize tr writeOk
  else
    match validateOutputFile fs0 o.outputFilename o.force with
    | .error .collision => ⟨.error .collision, fs0, []⟩
    | .error .removal => ⟨.error .removal, fs0, []⟩
    | .ok (fs1, removed) =>
        afterValidate fs1 (if removed then [.removeDest] else []) o W H inSize tr writeOk

/-- Helper for `filepath.Ext`, scanning the reversed path: the extension
(reversed) is the segment up to and including the first `.`, empty if a `/`
or the start of the path is reached first. -/
def extRevAux : List Char → Option (List Char)
  | [] => none
  | c :: rest =>
      if c = '/' then none
      else if c = '.' then some [c]
      else (extRevAux rest).map (fun e => c :: e)

/-- Go's `filepath.Ext`: the suffix beginning at the final dot in the final
path element, empty if there is none. -/
def filepathExt (path : String) : String :=
  String.mk (((extRevAux path.data.reverse).getD []).reverse)

/-- Go's `strings.TrimSuffix`. -/
def trimSuffix (s suffix : String) : String :=
  if suffix.data.isSuffixOf s.data then
    String.mk (s.data.take (s.data.length - suffix.data.length))
  else s

/-- The default output name of the latest revision:
`strings.TrimSuffix(input, ext) + "_opt" + ext`. -/
def deriveOutput (input : String) : String :=
  trimSuffix input (filepathExt input) ++ "_opt" ++ filepathExt input

/-- The output filename after the defaulting step of `main` (line
`if opt.outputFilename == "" { ... }`). -/
def finalOutputName (input explicitOutput : String) : String :=
  if explicitOutput = "" then deriveOutput input else explicitOutput

/-- The output-type selection of `main`: start from the decoder's format
description, overwrite with the output filename's extension when the output
filename is nonempty. -/
def selectOutputType (desc outputFilename : String) : String :=
  if outputFilename = "" then "." ++ desc.toLower
  else filepathExt outputFilename

/-- Truncation toward zero of a nonnegative rational is its floor. -/
theorem ratTrunc_eq_floor (q : ℚ) (hq : 0 ≤ q) : ratTrunc q = ⌊q⌋ := by
  rw [ratTrunc, if_pos hq, ratFloor_eq]

/-- The third component of `resolveAll` is the method computed from its first
two components. -/
theorem resolveAll_method (o : Options) (W H : Int) :
    (resolveAll o W H).2.2 =
      resolveMethod o.stretch (resolveAll o W H).1 (resolveAll o W H).2.1 W H := rfl

/-- C1 counterexample: with `-max 500 -min 100` on a 1000×800 image both
thresholds are exceeded, yet the percentage that survives is the
min-shortest-side one (100/800·100 = 12.5), not the max-longest-side one
(500/1000·100 = 50): the `-min` step runs even though the `-max` step fired,
and overwrites its percentage. -/
theorem minOverwritesMax_cex :
    (500:Int) > 0 ∧ (100:Int) > 0 ∧
    max (1000:Int) 800 > 500 ∧ min (1000:Int) 800 > 100 ∧
    finalPct ⟨"o", 0, 0, 0, 0, 500, 100, 0, false, false, false⟩ 1000 800 =
      ((100:ℚ) / ((min (1000:Int) 800 : Int) : ℚ)) * 100 ∧
    finalPct ⟨"o", 0, 0, 0, 0, 500, 100, 0, false, false, false⟩ 1000 800 ≠
      ((500:ℚ) / ((max (1000:Int) 800 : Int) : ℚ)) * 100 := by
  norm_num [finalPct, pctAfterMax, pctAfterMin]

/-- C1 (amended): the `-max` and `-min` rules are evaluated sequentially and
each fires whenever its own threshold is exceeded; when both fire, the
min-shortest-side percentage — computed last — is the one that survives
(overwriting the max-longest-side one, and any directly supplied
percentage). -/
theorem minShortest_survives (o : Options) (W H : Int)
    (hmin : o.minShortest > 0) (hlt : min W H > o.minShortest) :
    finalPct o W H = ((o.minShortest : Int) : ℚ) / ((min W H : Int) : ℚ) * 100 := by
  rw [finalPct, pctAfterMin, if_pos ⟨hmin, hlt⟩]

/-- Witness for `minShortest_survives` at the counterexample configuration. -/
theorem minShortest_survives_witness :
    finalPct ⟨"o", 0, 0, 0, 0, 500, 100, 0, false, false, false⟩ 1000 800 = 25/2 :=
  (minShortest_survives ⟨"o", 0, 0, 0, 0, 500, 100, 0, false, false, false⟩ 1000 800
    (by norm_num) (by norm_num)).trans (by norm_num)

/-- C2: with only `-pct p` set (`0 < p ≤ 100`), the resolved target is the
floor (= truncation toward zero, the two agree on nonnegative values) of
`W·p/100` and `H·p/100`. -/
theorem pctOnly_truncates (W H : Int) (p : ℚ) (name : String)
    (hW : 0 < W) (hH : 0 < H) (hp : 0 < p) (hp100 : p ≤ 100) :
    (resolveAll ⟨name, 0, 0, 0, 0, 0, 0, p, false, false, false⟩ W H).1 =
      ⌊((W : ℚ) * p) / 100⌋ ∧
    (resolveAll ⟨name, 0, 0, 0, 0, 0, 0, p, false, false, false⟩ W H).2.1 =
      ⌊((H : ℚ) * p) / 100⌋ := by
  have hpct : finalPct ⟨name, 0, 0, 0, 0, 0, 0, p, false, false, false⟩ W H = p := by
    norm_num [finalPct, pctAfterMax, pctAfterMin]
  have hW' : (0:ℚ) ≤ (W : ℚ) * (p / 100) := by positivity
  have hH' : (0:ℚ) ≤ (H : ℚ) * (p / 100) := by positivity
  constructor
  · show resolveDim _ _ _ _ = _
    rw [hpct, resolveDim, if_pos hp, Scale, ratTrunc_eq_floor _ hW', mul_div_assoc]
  · show resolveDim _ _ _ _ = _
    rw [hpct, resolveDim, if_pos hp, Scale, ratTrunc_eq_floor _ hH', mul_div_assoc]

/-- Witness for `pctOnly_truncates`: a 3×5 image at 50% resolves to 1×2. -/
theorem pctOnly_truncates_witness :
    (resolveAll ⟨"o", 0, 0, 0, 0, 0, 0, 50, false, false, false⟩ 3 5).1 = 1 ∧
    (resolveAll ⟨"o", 0, 0, 0, 0, 0, 0, 50, false, false, false⟩ 3 5).2.1 = 2 :=
  ⟨((pctOnly_truncates 3 5 50 "o" (by norm_num) (by norm_num) (by norm_num)
      (by norm_num)).1).trans (by rw [Int.floor_eq_iff] <;> norm_num),
   ((pctOnly_truncates 3 5 50 "o" (by norm_num) (by norm_num) (by norm_num)
      (by norm_num)).2).trans (by rw [Int.floor_eq_iff] <;> norm_num)⟩

/-- C3 counterexample: with `-w -5` and no other sizing flag on a 100×100
image, the resolved target width is the negative value −5 itself — a negative
explicit dimension is not treated as "not set". -/
theorem negativeWidth_cex :
    (resolveAll ⟨"o", -5, 0, 0, 0, 0, 0, 0, false, false, false⟩ 100 100).1 = -5 ∧
    (-5 : Int) < 0 := by
  norm_num [resolveAll, finalPct, pctAfterMax, pctAfterMin, resolveDim]

/-- C3 (amended): when no percentage rule fires and no max-width/max-height
applies, only an explicit dimension equal to zero falls back to the intrinsic
dimension; every nonzero explicit dimension — negative ones included —
becomes the resolved target on its axis. -/
theorem explicitDim_zero_fallback (o : Options) (W H : Int)
    (hpct : finalPct o W H ≤ 0) (hmw : o.maxWidth ≤ 0) (hmh : o.maxHeight ≤ 0) :
    ((o.outputWidth = 0 → (resolveAll o W H).1 = W) ∧
      (o.outputWidth ≠ 0 → (resolveAll o W H).1 = o.outputWidth)) ∧
    ((o.outputHeight = 0 → (resolveAll o W H).2.1 = H) ∧
      (o.outputHeight ≠ 0 → (resolveAll o W H).2.1 = o.outputHeight)) := by
  have hp : ¬ finalPct o W H > 0 := not_lt.mpr hpct
  have hw : ¬ o.maxWidth > 0 := not_lt.mpr hmw
  have hh : ¬ o.maxHeight > 0 := not_lt.mpr hmh
  refine ⟨⟨fun h0 => ?_, fun h0 => ?_⟩, ⟨fun h0 => ?_, fun h0 => ?_⟩⟩
  · show resolveDim _ _ _ _ = _
    rw [resolveDim, if_neg hp, if_neg hw, if_pos h0]
  · show resolveDim _ _ _ _ = _
    rw [resolveDim, if_neg hp, if_neg hw, if_neg h0]
  · show resolveDim _ _ _ _ = _
    rw [resolveDim, if_neg hp, if_neg hh, if_pos h0]
  · show resolveDim _ _ _ _ = _
    rw [resolveDim, if_neg hp, if_neg hh, if_neg h0]

/-- Witness for `explicitDim_zero_fallback` at the `-w -5` configuration. -/
theorem explicitDim_zero_fallback_witness :
    (resolveAll ⟨"o", -5, 0, 0, 0, 0, 0, 0, false, false, false⟩ 100 100).1 = -5 ∧
    (resolveAll ⟨"o", -5, 0, 0, 0, 0, 0, 0, false, false, false⟩ 100 100).2.1 = 100 :=
  ⟨((explicitDim_zero_fallback ⟨"o", -5, 0, 0, 0, 0, 0, 0, false, false, false⟩ 100 100
      (by norm_num [finalPct, pctAfterMax, pctAfterMin]) (by norm_num)
      (by norm_num)).1.2) (by norm_num),
   ((explicitDim_zero_fallback ⟨"o", -5, 0, 0, 0, 0, 0, 0, false, false, false⟩ 100 100
      (by norm_num [finalPct, pctAfterMax, pctAfterMin]) (by norm_num)
      (by norm_num)).2.1) rfl⟩

/-- C7: the resolved mode is `no-resize` whenever the resolved target equals
the intrinsic size, and otherwise `free-stretch` exactly when the stretch
flag is set, `fit-crop` otherwise. -/
theorem resolveModeSpec (o : Options) (W H : Int) :
    ((resolveAll o W H).1 = W ∧ (resolveAll o W H).2.1 = H →
      (resolveAll o W H).2.2 = .noResize) ∧
    (¬((resolveAll o W H).1 = W ∧ (resolveAll o W H).2.1 = H) →
      (resolveAll o W H).2.2 = if o.stretch then .resize else .fit) := by
  constructor
  · intro h
    rw [resolveAll_method, resolveMethod, if_pos h]
  · intro h
    rw [resolveAll_method, resolveMethod, if_neg h]

/-- Witness for `resolveModeSpec`: `-w 50 -h 60 -stretch` on 100×100 resolves
to mode `free-stretch`. -/
theorem resolveModeSpec_witness :
    (resolveAll ⟨"o", 50, 60, 0, 0, 0, 0, 0, true, false, false⟩ 100 100).2.2 =
      ResizeMethod.resize := by
  have h : ¬((resolveAll ⟨"o", 50, 60, 0, 0, 0, 0, 0, true, false, false⟩ 100 100).1 = 100 ∧
      (resolveAll ⟨"o", 50, 60, 0, 0, 0, 0, 0, true, false, false⟩ 100 100).2.1 = 100) := by
    norm_num [resolveAll, finalPct, pctAfterMax, pctAfterMin, resolveDim]
  simpa using (resolveModeSpec ⟨"o", 50, 60, 0, 0, 0, 0, 0, true, false, false⟩ 100 100).2 h

/-- C8: resolution is idempotent — re-resolving the resolved dimensions with
no sizing flags set returns them unchanged with mode `no-resize`. -/
theorem resolveIdempotent (o : Options) (W H w h : Int) (m : ResizeMethod)
    (name : String) (s f n : Bool) (hres : resolveAll o W H = (w, h, m)) :
    resolveAll ⟨name, 0, 0, 0, 0, 0, 0, 0, s, f, n⟩ w h = (w, h, .noResize) := by
  clear hres
  norm_num [resolveAll, finalPct, pctAfterMax, pctAfterMin, resolveDim, resolveMethod]

/-- Witness for `resolveIdempotent` starting from the `-max 500 -min 100`
resolution on a 1000×800 image. -/
theorem resolveIdempotent_witness :
    resolveAll ⟨"o", 0, 0, 0, 0, 0, 0, 0, false, false, false⟩ 125 100 =
      (125, 100, .noResize) :=
  resolveIdempotent ⟨"o", 0, 0, 0, 0, 500, 100, 0, false, false, false⟩ 1000 800
    125 100 .fit "o" false false false
    (by norm_num [resolveAll, finalPct, pctAfterMax, pctAfterMin, resolveDim,
      resolveMethod, Scale, ratTrunc, ratFloor_eq, Int.floor_eq_iff])

/-- Rounding an integer value is the identity. -/
theorem roundHalfEven_intCast (z : Int) : roundHalfEven (z : ℚ) = z := by
  norm_num [roundHalfEven, Int.floor_intCast]

/-- Evaluating the one-decimal formatter when ten times the value is the
natural number `n`. -/
theorem fmtOneDec_eval (q : ℚ) (n : ℕ) (h : q * 10 = (n : ℚ)) :
    fmtOneDec q = toString (n / 10) ++ "." ++ toString (n % 10) := by
  have h' : q * 10 = ((n : Int) : ℚ) := by rw [h]; norm_num
  rw [fmtOneDec, h', roundHalfEven_intCast, Int.toNat_natCast]

/-- C4 counterexample: the formatter keeps the `"B"` suffix after the unit
letter, so 1536 bytes render as `"1.5KB"`, not as the claimed `"1.5K"`. -/
theorem humanize_suffix_cex : Humanize 1536 ≠ "1.5K" := by
  rw [Humanize, humanizeLoop, if_neg (by norm_num), humanizeLoop,
    if_pos (by norm_num), fmtOneDec_eval _ 15 (by norm_num)]
  decide

/-- C4 (amended): the byte formatter uses a 1024 divisor, one decimal place
and suffix `"B"` appended after the unit letter: `Humanize 0 = "0.0B"`,
`Humanize 1536 = "1.5KB"`, `Humanize (1024*1024) = "1.0MB"`. -/
theorem humanize_values :
    Humanize 0 = "0.0B" ∧ Humanize 1536 = "1.5KB" ∧
    Humanize (1024*1024) = "1.0MB" := by
  refine ⟨?_, ?_, ?_⟩
  · rw [Humanize, humanizeLoop, if_pos (by norm_num), fmtOneDec_eval _ 0 (by norm_num)]
    decide
  · rw [Humanize, humanizeLoop, if_neg (by norm_num), humanizeLoop,
      if_pos (by norm_num), fmtOneDec_eval _ 15 (by norm_num)]
    decide
  · rw [Humanize, humanizeLoop, if_neg (by norm_num), humanizeLoop,
      if_neg (by norm_num), humanizeLoop, if_pos (by norm_num),
      fmtOneDec_eval _ 10 (by norm_num)]
    decide

/-- C5: output validation collides exactly on an existing path without force;
with force it deletes the existing file (touching no other path) before
succeeding, fails with the removal error when deletion fails, succeeds
without touching the filesystem when the path does not exist, and a second
forced validation after a successful one cannot fail. -/
theorem validateSpec (fs : Fs) (name : String) (force : Bool) :
    (fs.pathExists name = true → force = false →
      validateOutputFile fs name force = .error .collision) ∧
    (fs.pathExists name = true → force = true → fs.removeOk name = true →
      ∃ fs', validateOutputFile fs name force = .ok (fs', true) ∧
        fs'.pathExists name = false ∧
        (∀ q, q ≠ name → fs'.pathExists q = fs.pathExists q)) ∧
    (fs.pathExists name = true → force = true → fs.removeOk name = false →
      validateOutputFile fs name force = .error .removal) ∧
    (fs.pathExists name = false → validateOutputFile fs name force = .ok (fs, false)) ∧
    (∀ fs' b, validateOutputFile fs name true = .ok (fs', b) →
      validateOutputFile fs' name true = .ok (fs', false)) := by
  refine ⟨fun hex hf => ?_, fun hex hf hrm => ?_, fun hex hf hrm => ?_,
    fun hnex => ?_, fun fs' b h => ?_⟩
  · rw [validateOutputFile, if_pos hex, if_pos hf]
  · subst hf
    refine ⟨{ fs with pathExists := fun q => if q = name then false else fs.pathExists q },
      ?_, ?_, ?_⟩
    · rw [validateOutputFile, if_pos hex, if_neg (by simp), removeFile, if_pos hrm]
    · simp
    · intro q hq
      simp [hq]
  · subst hf
    rw [validateOutputFile, if_pos hex, if_neg (by simp), removeFile, if_neg (by simp [hrm])]
  · rw [validateOutputFile, if_neg (by simp [hnex])]
  · rw [validateOutputFile] at h
    by_cases hex : fs.pathExists name = true
    · rw [if_pos hex, if_neg (by simp)] at h
      rw [removeFile] at h
      by_cases hrm : fs.removeOk name = true
      · rw [if_pos hrm] at h
        cases h
        rw [validateOutputFile, if_neg (by simp)]
      · rw [if_neg hrm] at h
        exact absurd h (by simp)
    · rw [if_neg hex] at h
      cases h
      rw [validateOutputFile, if_neg hex]

/-- Witness for `validateSpec`: an existing `out.jpeg` without force
collides. -/
theorem validateSpec_witness :
    validateOutputFile ⟨fun q => q == "out.jpeg", fun _ => true⟩ "out.jpeg" false =
      .error .collision :=
  (validateSpec ⟨fun q => q == "out.jpeg", fun _ => true⟩ "out.jpeg" false).1
    (by decide) rfl

/-- The report does not depend on the dry-run flag. -/
theorem mkReport_noAction (o : Options) (b : Bool) (W H : Int) (a c : Nat) :
    mkReport { o with noAction := b } W H a c = mkReport o W H a c := rfl

/-- A successful pipeline run reports exactly the values computed by
`mkReport` from the transform's output size. -/
theorem afterValidate_ok (fs1 : Fs) (effs : List Eff) (o : Options) (W H : Int)
    (inSize : Nat) (tr : Except Unit Nat) (writeOk : Bool) (r : Report)
    (h : (afterValidate fs1 effs o W H inSize tr writeOk).result = .ok r) :
    ∃ outSize, tr = .ok outSize ∧ r = mkReport o W H inSize outSize := by
  cases tr with
  | error e => exact absurd h (by simp [afterValidate])
  | ok outSize =>
    refine ⟨outSize, rfl, ?_⟩
    by_cases hn : o.noAction
    · simp [afterValidate, hn] at h
      exact h.symm
    · by_cases hw : writeOk
      · simp [afterValidate, hn, hw] at h
        exact h.symm
      · simp [afterValidate, hn, hw] at h

/-- A successful run of the whole pipeline reports the `mkReport` values. -/
theorem runPipeline_ok (fs0 : Fs) (o : Options) (W H : Int) (inSize : Nat)
    (tr : Except Unit Nat) (writeOk : Bool) (r : Report)
    (h : (runPipeline fs0 o W H inSize tr writeOk).result = .ok r) :
    ∃ outSize, tr = .ok outSize ∧ r = mkReport o W H inSize outSize := by
  rw [runPipeline] at h
  by_cases hn : o.noAction
  · rw [if_pos hn] at h
    exact afterValidate_ok _ _ _ _ _ _ _ _ _ h
  · rw [if_neg hn] at h
    rcases hval : validateOutputFile fs0 o.outputFilename o.force with e | p
    · cases e <;> rw [hval] at h <;> exact absurd h (by simp)
    · rw [hval] at h
      exact afterValidate_ok _ _ _ _ _ _ _ _ _ h

/-- C6: with `-n` (dry run) the pipeline touches no file — the filesystem is
returned unchanged and no destination mutation is performed — and whenever
the corresponding non-dry-run invocation succeeds with some report, the dry
run computes exactly that report. -/
theorem dryRunSpec (fs0 : Fs) (o : Options) (W H : Int) (inSize : Nat)
    (tr : Except Unit Nat) (writeOk : Bool) (hdry : o.noAction = true) :
    (runPipeline fs0 o W H inSize tr writeOk).fs = fs0 ∧
    (runPipeline fs0 o W H inSize tr writeOk).effs = [] ∧
    (∀ r, (runPipeline fs0 { o with noAction := false } W H inSize tr
        writeOk).result = .ok r →
      (runPipeline fs0 o W H inSize tr writeOk).result = .ok r) := by
  have hrun : runPipeline fs0 o W H inSize tr writeOk =
      afterValidate fs0 [] o W H inSize tr writeOk := by
    rw [runPipeline, if_pos hdry]
  refine ⟨?_, ?_, ?_⟩
  · rw [hrun]
    cases tr with
    | error e => rfl
    | ok n => simp [afterValidate, hdry]
  · rw [hrun]
    cases tr with
    | error e => rfl
    | ok n => simp [afterValidate, hdry]
  · intro r hr
    obtain ⟨outSize, htr, hrep⟩ := runPipeline_ok _ _ _ _ _ _ _ _ hr
    subst htr
    rw [hrun, hrep, mkReport_noAction]
    simp [afterValidate, hdry]

/-- Witness inputs: an empty filesystem where every removal would succeed. -/
def exFs : Fs := ⟨fun _ => false, fun _ => true⟩

/-- Witness configuration: dry run (`-n`), no sizing flags. -/
def exDry : Options := ⟨"out.jpeg", 0, 0, 0, 0, 0, 0, 0, false, false, true⟩

/-- Witness for `dryRunSpec`: a dry run on a 100×100 input leaves the
filesystem alone and reports the same values the real run would. -/
theorem dryRunSpec_witness :
    (runPipeline exFs exDry 100 100 1000 (.ok 500) true).fs = exFs ∧
    (runPipeline exFs exDry 100 100 1000 (.ok 500) true).effs = [] ∧
    (runPipeline exFs exDry 100 100 1000 (.ok 500) true).result =
      .ok (mkReport exDry 100 100 1000 500) := by
  obtain ⟨h1, h2, h3⟩ := dryRunSpec exFs exDry 100 100 1000 (.ok 500) true rfl
  exact ⟨h1, h2, h3 _ rfl⟩

/-- C9: with force set, destination existing and its removal succeeding, a
non-dry run whose transform (or final write) fails exits with an error while
the destination has already been deleted and nothing restored it. -/
theorem forceDeleteNotRestored (fs0 : Fs) (o : Options) (W H : Int)
    (inSize : Nat) (tr : Except Unit Nat) (writeOk : Bool)
    (hact : o.noAction = false) (hforce : o.force = true)
    (hex : fs0.pathExists o.outputFilename = true)
    (hrm : fs0.removeOk o.outputFilename = true)
    (hfail : tr = .error () ∨ writeOk = false) :
    (∃ e, (runPipeline fs0 o W H inSize tr writeOk).result = .error e ∧
      (e = MainError.transformFailed ∨ e = MainError.writeFailed)) ∧
    (runPipeline fs0 o W H inSize tr writeOk).fs.pathExists o.outputFilename = false ∧
    (runPipeline fs0 o W H inSize tr writeOk).effs = [.removeDest] := by
  have hval : validateOutputFile fs0 o.outputFilename o.force =
      .ok ({ fs0 with pathExists :=
        fun q => if q = o.outputFilename then false else fs0.pathExists q }, true) := by
    rw [validateOutputFile, if_pos hex, hforce, if_neg (by simp), removeFile, if_pos hrm]
  have hrun : runPipeline fs0 o W H inSize tr writeOk =
      afterValidate { fs0 with pathExists :=
          fun q => if q = o.outputFilename then false else fs0.pathExists q }
        [.removeDest] o W H inSize tr writeOk := by
    rw [runPipeline, if_neg (by simp [hact]), hval]
    rfl
  rcases hfail with htr | hw
  · subst htr
    exact ⟨⟨.transformFailed, by rw [hrun]; exact ⟨rfl, Or.inl rfl⟩⟩,
      by rw [hrun]; simp [afterValidate], by rw [hrun]; rfl⟩
  · subst hw
    cases tr with
    | error e =>
      exact ⟨⟨.transformFailed, by rw [hrun]; exact ⟨rfl, Or.inl rfl⟩⟩,
        by rw [hrun]; simp [afterValidate], by rw [hrun]; rfl⟩
    | ok n =>
      refine ⟨⟨.writeFailed, ?_, Or.inr rfl⟩, ?_, ?_⟩
      · rw [hrun]
        simp [afterValidate, hact]
      · rw [hrun]
        simp [afterValidate, hact]
      · rw [hrun]
        simp [afterValidate, hact]

/-- Witness filesystem for `forceDeleteNotRestored`: `out.jpeg` exists and
removals succeed. -/
def exFsOut : Fs := ⟨fun q => q == "out.jpeg", fun _ => true⟩

/-- Witness configuration for `forceDeleteNotRestored`: `-f`, not dry-run. -/
def exForce : Options := ⟨"out.jpeg", 0, 0, 0, 0, 0, 0, 0, false, true, false⟩

/-- Witness for `forceDeleteNotRestored`: a failing transform after a forced
validation leaves `out.jpeg` deleted. -/
theorem forceDeleteNotRestored_witness :
    (runPipeline exFsOut exForce 100 100 1000 (.error ()) true).fs.pathExists
      "out.jpeg" = false ∧
    (runPipeline exFsOut exForce 100 100 1000 (.error ()) true).effs =
      [.removeDest] :=
  ⟨(forceDeleteNotRestored exFsOut exForce 100 100 1000 (.error ()) true
      rfl rfl (by decide) rfl (Or.inl rfl)).2.1,
   (forceDeleteNotRestored exFsOut exForce 100 100 1000 (.error ()) true
      rfl rfl (by decide) rfl (Or.inl rfl)).2.2⟩

/-- The derived default output name always contains `_opt`, hence is never
empty. -/
theorem deriveOutput_ne_empty (input : String) : deriveOutput input ≠ "" := by
  rw [deriveOutput]
  intro h
  have hd := congrArg String.data h
  rw [String.data_append, String.data_append] at hd
  have h4 : "_opt".data = [] := (List.append_eq_nil.mp (List.append_eq_nil.mp hd).1).2
  exact absurd h4 (by decide)

/-- C10: after the defaulting step the output filename is never empty, so the
output format passed to the codec is always the extension of the (explicit
or derived) output path; the fallback using the decoder's intrinsic format is
unreachable. -/
theorem outputTypeIsExt (input explicitOut desc : String) :
    finalOutputName input explicitOut ≠ "" ∧
    selectOutputType desc (finalOutputName input explicitOut) =
      filepathExt (finalOutputName input explicitOut) := by
  have hne : finalOutputName input explicitOut ≠ "" := by
    rw [finalOutputName]
    split
    · exact deriveOutput_ne_empty input
    · next hne => exact hne
  exact ⟨hne, by rw [selectOutputType, if_neg hne]⟩

end Optimg
